import Mathlib

/-!
Shallow embedding of `thunder/rdds/fileio/imagesloader.py` (`ImagesLoader`):
the stack decoder `fromStack`/`toArray`, the multipage decoder
`fromTif`/`multitifReader`, the single-frame decoder `fromPng`, and the
configuration validation these methods perform before any record is decoded.

Modelling conventions:
- a record's byte buffer is a `List Nat`; a decoded element of width `w`
  is represented by the `w`-byte chunk it was read from (numpy `frombuffer`
  reads elements in buffer order, and `reshape(dims, order='F')` keeps that
  flat order with the first dimension fastest-varying, so the flat element
  list in buffer order is exactly the Fortran-ordered array);
- a tif page produced by the injected page-decode capability (PIL plus
  `conversionFcn`) is an abstract `Page` (shape and pixel data); the byte
  level container walk `Image.open` / `seek` / `EOFError` is modelled by
  handing `multitifReader` the record's list of pages in page order;
- `dstack` of more than one page is modelled as a page whose shape gains a
  new trailing axis of the group length and whose data is the pages' data
  concatenated (the claims inspect shapes and grouping, not the interleaved
  element order produced by numpy's `dstack`);
- Python loops are embedded with an explicit fuel argument that is provably
  sufficient, keeping every definition structurally recursive and hence
  evaluable by `decide`/`rfl`.
-/

/-- One input record: a source file's raw bytes tagged with its 0-based
sorted position, as delivered by the reader collaborator. -/
structure Record where
  position : Nat
  buffer : List Nat
deriving DecidableEq

/-- Errors surfaced by the loader: configuration errors are the `ValueError`s
raised eagerly in `fromStack` (lines 85-89) and `fromTif` (lines 172-173)
before the RDD is built; decode errors are what numpy's `frombuffer` raises
when the buffer holds fewer elements than requested. -/
inductive LoadError where
  | configError (msg : String)
  | decodeError (msg : String)
deriving DecidableEq

/-- A frame emitted by the stack decoder: global key, array shape, and the
flat element data in Fortran order. -/
structure Frame where
  key : Nat
  shape : List Nat
  data : List (List Nat)
deriving DecidableEq

/-- Split a byte list into consecutive chunks of `w` bytes (meaningful for
`w > 0`; numpy element widths are positive).  The fuel argument starts at the
list length and is consumed once per chunk, which keeps the recursion
structural. -/
def chunkListAux (w : Nat) : Nat → List Nat → List (List Nat)
  | _, [] => []
  | 0, _ :: _ => []
  | fuel + 1, a :: rest => (a :: rest.take (w - 1)) :: chunkListAux w fuel (rest.drop (w - 1))

/-- All `w`-byte chunks of `l`, in order. -/
def chunkList (w : Nat) (l : List Nat) : List (List Nat) :=
  chunkListAux w l.length l

/-- numpy `frombuffer(buf, dtype, count=count)` (line 93): raises iff the
buffer holds fewer than `count` elements of width `w`; otherwise reads exactly
the first `count` elements, ignoring any trailing bytes. -/
def frombuffer (w count : Nat) (buf : List Nat) : Except LoadError (List (List Nat)) :=
  if buf.length < count * w then
    Except.error (LoadError.decodeError "buffer is smaller than requested size")
  else
    Except.ok ((chunkList w buf).take count)

/-- The plane-grouping loop of `toArray` (lines 101-110): walk `curPlane`
upward while `curPlane < total`, closing the pending group
`[lastPlane, curPlane)` at timepoint `timepoint` whenever
`curPlane % nplanes == 0`, and finally flushing the trailing group
`[lastPlane, total)` (lines 111-113).  Entries are `(timepoint, lo, hi)`.
Fuel is consumed once per iteration; the wrapper below passes `total`, which
is enough for the walk starting at `curPlane = 1`. -/
def stackWalkAux (np total : Nat) : Nat → Nat → Nat → Nat → List (Nat × Nat × Nat)
  | 0, _, timepoint, lastPlane => [(timepoint, lastPlane, total)]
  | fuel + 1, curPlane, timepoint, lastPlane =>
    if curPlane < total then
      if curPlane % np = 0 then
        (timepoint, lastPlane, curPlane) ::
          stackWalkAux np total fuel (curPlane + 1) (timepoint + 1) curPlane
      else
        stackWalkAux np total fuel (curPlane + 1) timepoint lastPlane
    else
      [(timepoint, lastPlane, total)]

/-- The full list of `(timepoint, lo, hi)` plane groups produced for one
record: loop from `curPlane = 1`, `timepoint = 0`, `lastPlane = 0`. -/
def stackGroupBounds (np total : Nat) : List (Nat × Nat × Nat) :=
  stackWalkAux np total total 1 0 0

/-- `npoints` of `toArray` (lines 98-100): integer division `dims[-1] /
nplanes`, plus one when the division has a remainder. -/
def npointsOf (total np : Nat) : Nat :=
  total / np + (if total % np ≠ 0 then 1 else 0)

/-- The slice `ary[..., lo:hi]` (lines 106 and 112) of a Fortran-ordered
array whose non-final axes hold `psz` elements per plane: flat elements
`[lo * psz, hi * psz)`. -/
def extractPlanes (psz lo hi : Nat) (elems : List (List Nat)) : List (List Nat) :=
  (elems.drop (lo * psz)).take ((hi - lo) * psz)

/-- `toArray` (lines 91-113): reinterpret the buffer as an array shaped
`dims` in Fortran order; with `nplanes = none` emit it whole under key
`idx`, otherwise split the last axis into plane groups, emitting the group
at timepoint `t` under key `idx * npoints + t`. -/
def toArray (dims : List Nat) (w : Nat) (nplanes : Option Nat) (r : Record) :
    Except LoadError (List Frame) :=
  match frombuffer w dims.prod r.buffer with
  | Except.error e => Except.error e
  | Except.ok elems =>
    match nplanes with
    | none => Except.ok [⟨r.position, dims, elems⟩]
    | some np =>
      let total := dims.getLastD 0
      let npoints := npointsOf total np
      let psz := dims.dropLast.prod
      Except.ok ((stackGroupBounds np total).map (fun e =>
        ⟨r.position * npoints + e.1, dims.dropLast ++ [e.2.2 - e.2.1],
          extractPlanes psz e.2.1 e.2.2 elems⟩))

/-- The result of a loader call: the flattened keyed frames, the `nimages`
metadata handed to `Images` (`none` models Python `None`, the "unknown until
fully observed" sentinel), and the `dims` metadata. -/
structure ImagesResult where
  frames : List Frame
  nimages : Option Nat
  dims : List Nat
deriving DecidableEq

/-- `readerRdd.flatMap(toArray)`: decode every record in order, concatenating
the per-record frames; a decode failure on any record aborts the whole
ingestion. -/
def mapDecode (dims : List Nat) (w : Nat) (np : Option Nat) :
    List Record → Except LoadError (List Frame)
  | [] => Except.ok []
  | r :: rs =>
    match toArray dims w np r, mapDecode dims w np rs with
    | Except.ok fs, Except.ok rest => Except.ok (fs ++ rest)
    | Except.error e, _ => Except.error e
    | _, Except.error e => Except.error e

/-- `fromStack` (lines 48-119): validate `dims` and `nplanes` eagerly
(lines 85-89), then decode each record with `toArray`; `nimages` is the
record count when `nplanes` is unset and `None` otherwise (line 117); the
reported dims replace the last axis by `nplanes` when splitting (line 118). -/
def fromStack (dims : List Nat) (w : Nat) (nplanes : Option Int)
    (records : List Record) : Except LoadError ImagesResult :=
  if dims = [] then
    Except.error (LoadError.configError
      "Image dimensions must be specified if loading from binary stack data")
  else
    match nplanes with
    | some n =>
      if n ≤ 0 then
        Except.error (LoadError.configError "nplanes must be positive if passed")
      else
        match mapDecode dims w (some n.toNat) records with
        | Except.error e => Except.error e
        | Except.ok fs => Except.ok ⟨fs, none, dims.dropLast ++ [n.toNat]⟩
    | none =>
      match mapDecode dims w none records with
      | Except.error e => Except.error e
      | Except.ok fs => Except.ok ⟨fs, some records.length, dims⟩

/-- One decoded 2-D tif page (or a `dstack` of pages): shape and pixel data. -/
structure Page where
  shape : List Nat
  data : List Nat
deriving DecidableEq

def defaultPage : Page := ⟨[], []⟩

/-- Lines 191 and 200: `dstack(imgArys) if len(imgArys) > 1 else imgArys[0]`.
A group of more than one page gains a new trailing axis of the group length;
a single-page group keeps the page's own shape. -/
def mkRetAry (imgArys : List Page) : Page :=
  if 1 < imgArys.length then
    ⟨(imgArys.headD defaultPage).shape ++ [imgArys.length], (imgArys.map Page.data).flatten⟩
  else
    imgArys.headD defaultPage

/-- The page walk of `multitifReader` (lines 183-198): append each page to
the pending `imgArys`, decrement `npagesLeft`, and when it reaches zero close
the group into `values` and reset the counter to `np0`; `EOFError` (the end
of the page list) exits the loop.  Returns the final pending group and the
closed groups, mirroring the loop's `(imgArys, values)` state. -/
def tifWalk (np0 : Int) : List Page → Int → List Page → List Page →
    (List Page × List Page)
  | [], _, imgArys, values => (imgArys, values)
  | p :: rest, npagesLeft, imgArys, values =>
    if npagesLeft - 1 = 0 then
      tifWalk np0 rest np0 [] (values ++ [mkRetAry (imgArys ++ [p])])
    else
      tifWalk np0 rest (npagesLeft - 1) (imgArys ++ [p]) values

/-- Line 181: `npagesLeft = -1 if nplanes is None else nplanes`. -/
def np0Of (nplanes : Option Int) : Int :=
  match nplanes with
  | none => -1
  | some n => n

/-- `multitifReader` (lines 175-204): run the page walk, flush any non-empty
pending group as one final value (lines 199-201), then key the values
`idx * nvals + timepoint` with `nvals` the number of values observed for this
record (lines 202-204). -/
def multitifReader (nplanes : Option Int) (idx : Nat) (pages : List Page) :
    List (Nat × Page) :=
  let np0 := np0Of nplanes
  let walked := tifWalk np0 pages np0 [] []
  let values := if walked.1 = [] then walked.2 else walked.2 ++ [mkRetAry walked.1]
  let nvals := values.length
  ((List.range nvals).map (fun timepoint => idx * nvals + timepoint)).zip values

/-- The result of `fromTif`: keyed page arrays plus `nimages` metadata. -/
structure TifImages where
  frames : List (Nat × Page)
  nimages : Option Nat
deriving DecidableEq

/-- `fromTif` (lines 121-209): validate `nplanes` eagerly (lines 172-173),
then decode each record with `multitifReader`; `nimages` is the record count
when `nplanes` is unset and `None` otherwise (line 208). -/
def fromTif (nplanes : Option Int) (records : List (Nat × List Page)) :
    Except LoadError TifImages :=
  match nplanes with
  | some n =>
    if n ≤ 0 then
      Except.error (LoadError.configError "nplanes must be positive if passed")
    else
      Except.ok ⟨(records.map (fun r => multitifReader nplanes r.1 r.2)).flatten, none⟩
  | none =>
    Except.ok ⟨(records.map (fun r => multitifReader nplanes r.1 r.2)).flatten,
      some records.length⟩

/-- The result of `fromPng`: keyed page arrays plus `nimages` metadata. -/
structure PngImages where
  frames : List (Nat × Page)
  nimages : Option Nat
deriving DecidableEq

/-- `fromPng` (lines 211-242): `mapValues(readPngFromBuf)` decodes each
record's buffer into exactly one array, keeping the record's key, and
`nimages` is the record count; there is no `nplanes` parameter and no
splitting. -/
def fromPng (readPngFromBuf : List Nat → Page) (records : List (Nat × List Nat)) :
    PngImages :=
  ⟨records.map (fun r => (r.1, readPngFromBuf r.2)), some records.length⟩

/-- The closed groups of the page walk together with the final flush, as raw
page lists (before `dstack`): the specification of which pages `tifWalk`
groups together. -/
def tifGroupsAux (np0 : Int) : List Page → Int → List Page → List (List Page)
  | [], _, imgArys => if imgArys = [] then [] else [imgArys]
  | p :: rest, npagesLeft, imgArys =>
    if npagesLeft - 1 = 0 then
      (imgArys ++ [p]) :: tifGroupsAux np0 rest np0 []
    else
      tifGroupsAux np0 rest (npagesLeft - 1) (imgArys ++ [p])

/-- The page groups `multitifReader` forms for one record. -/
def tifGroups (np0 : Int) (pages : List Page) : List (List Page) :=
  tifGroupsAux np0 pages np0 []

/-- A sample decoded 2-D page, used in the concrete counterexamples. -/
def pageA : Page := ⟨[2, 3], [0, 1, 2, 3, 4, 5]⟩

/-! ### Helper lemmas about the embedded loops -/

theorem frombuffer_ok (w count : Nat) (buf : List Nat) (h : count * w ≤ buf.length) :
    frombuffer w count buf = Except.ok ((chunkList w buf).take count) := by
  unfold frombuffer
  rw [if_neg (by omega)]

theorem toArray_split (dims : List Nat) (w np idx : Nat) (buf : List Nat)
    (h : dims.prod * w ≤ buf.length) :
    toArray dims w (some np) ⟨idx, buf⟩ =
      Except.ok ((stackGroupBounds np (dims.getLastD 0)).map (fun e =>
        ⟨idx * npointsOf (dims.getLastD 0) np + e.1,
          dims.dropLast ++ [e.2.2 - e.2.1],
          extractPlanes dims.dropLast.prod e.2.1 e.2.2
            ((chunkList w buf).take dims.prod)⟩)) := by
  unfold toArray
  rw [frombuffer_ok w dims.prod buf h]

theorem stackWalkAux_ne_nil (np total : Nat) :
    ∀ fuel curPlane t l, stackWalkAux np total fuel curPlane t l ≠ []
  | 0, c, t, l => by simp [stackWalkAux]
  | fuel + 1, c, t, l => by
    by_cases h1 : c < total
    · by_cases h2 : c % np = 0
      · simp [stackWalkAux, h1, h2]
      · simpa [stackWalkAux, h1, h2] using stackWalkAux_ne_nil np total fuel (c + 1) t l
    · simp [stackWalkAux, h1]

/-- The timepoints recorded along the walk are consecutive, starting from the
incoming `timepoint` counter. -/
theorem stackWalkAux_map_fst (np total : Nat) :
    ∀ fuel curPlane t l, (stackWalkAux np total fuel curPlane t l).map (fun e => e.1) =
      List.range' t (stackWalkAux np total fuel curPlane t l).length
  | 0, c, t, l => by simp [stackWalkAux, List.range']
  | fuel + 1, c, t, l => by
    by_cases h1 : c < total
    · by_cases h2 : c % np = 0
      · simp only [stackWalkAux, if_pos h1, if_pos h2, List.map_cons, List.length_cons]
        rw [stackWalkAux_map_fst np total fuel (c + 1) (t + 1) c]
        rfl
      · simp only [stackWalkAux, if_pos h1, if_neg h2]
        exact stackWalkAux_map_fst np total fuel (c + 1) t l
    · simp [stackWalkAux, h1, List.range']

/-- The walk closes one group per multiple of `np` strictly below `total` and
then flushes once: counting from `curPlane`, it emits
`(total - 1) / np - (curPlane - 1) / np + 1` groups. -/
theorem stackWalkAux_length (np total : Nat) (hnp : 0 < np) :
    ∀ fuel curPlane t l, 1 ≤ curPlane → curPlane ≤ total → total < fuel + curPlane →
      (stackWalkAux np total fuel curPlane t l).length =
        (total - 1) / np - (curPlane - 1) / np + 1
  | 0, c, t, l, h1, h2, h3 => by omega
  | fuel + 1, c, t, l, h1, h2, h3 => by
    by_cases hlt : c < total
    · have hsucc : c / np = (c - 1) / np + if np ∣ c then 1 else 0 := by
        have h := Nat.succ_div (c - 1) np
        have hc : c - 1 + 1 = c := by omega
        rw [hc] at h
        exact h
      have hmono : c / np ≤ (total - 1) / np := Nat.div_le_div_right (by omega)
      by_cases hmod : c % np = 0
      · have hdvd : np ∣ c := Nat.dvd_of_mod_eq_zero hmod
        rw [if_pos hdvd] at hsucc
        simp only [stackWalkAux, if_pos hlt, if_pos hmod, List.length_cons]
        rw [stackWalkAux_length np total hnp fuel (c + 1) (t + 1) c
          (by omega) (by omega) (by omega)]
        simp only [Nat.add_sub_cancel]
        set A := (total - 1) / np with hA
        set B := (c - 1) / np with hB
        set C := c / np with hC
        omega
      · have hdvd : ¬ np ∣ c := fun h => hmod (Nat.mod_eq_zero_of_dvd h)
        rw [if_neg hdvd] at hsucc
        simp only [stackWalkAux, if_pos hlt, if_neg hmod]
        rw [stackWalkAux_length np total hnp fuel (c + 1) t l
          (by omega) (by omega) (by omega)]
        simp only [Nat.add_sub_cancel]
        set A := (total - 1) / np with hA
        set B := (c - 1) / np with hB
        set C := c / np with hC
        omega
    · have hc : c = total := by omega
      simp only [stackWalkAux, if_neg hlt, List.length_cons, List.length_nil]
      subst hc
      rw [Nat.sub_self]

/-- `groupsPerFile`: for a positive `total` the walk started at `curPlane = 1`
emits exactly `npointsOf total np` groups. -/
theorem stackGroupBounds_length (np total : Nat) (hnp : 0 < np) (ht : 0 < total) :
    (stackGroupBounds np total).length = npointsOf total np := by
  unfold stackGroupBounds npointsOf
  rw [stackWalkAux_length np total hnp total 1 0 0 (by omega) (by omega) (by omega)]
  have hsucc : total / np = (total - 1) / np + if np ∣ total then 1 else 0 := by
    have h := Nat.succ_div (total - 1) np
    have hc : total - 1 + 1 = total := by omega
    rw [hc] at h
    exact h
  have h0 : (1 - 1 : Nat) / np = 0 := by
    rw [Nat.sub_self, Nat.zero_div]
  rw [h0, Nat.sub_zero]
  by_cases hdvd : np ∣ total
  · have hmod : total % np = 0 := Nat.mod_eq_zero_of_dvd hdvd
    rw [if_pos hdvd] at hsucc
    simp only [hmod, ne_eq, not_true_eq_false, if_false]
    set A := (total - 1) / np with hA
    set B := total / np with hB
    omega
  · have hmod : total % np ≠ 0 := fun h => hdvd (Nat.dvd_of_mod_eq_zero h)
    rw [if_neg hdvd] at hsucc
    simp only [hmod, ne_eq, not_false_eq_true, if_true]
    set A := (total - 1) / np with hA
    set B := total / np with hB
    omega

/-- When `np` divides `total`, every group the walk emits — the trailing
flush included — spans exactly `np` planes. -/
theorem stackWalkAux_width (np total : Nat) (hnp : 0 < np) (hdvd : np ∣ total) :
    ∀ fuel curPlane t l, np ∣ l → l < curPlane → curPlane ≤ l + np → curPlane ≤ total →
      total < fuel + curPlane →
      ∀ e ∈ stackWalkAux np total fuel curPlane t l, e.2.2 - e.2.1 = np
  | 0, c, t, l, hl, hlc, hcn, hct, hf => by omega
  | fuel + 1, c, t, l, hl, hlc, hcn, hct, hf => by
    by_cases hlt : c < total
    · by_cases hmod : c % np = 0
      · have hdc : np ∣ c := Nat.dvd_of_mod_eq_zero hmod
        have hsub : np ∣ c - l := Nat.dvd_sub' hdc hl
        have hle : np ≤ c - l := Nat.le_of_dvd (by omega) hsub
        have hceq : c = l + np := by omega
        intro e he
        simp only [stackWalkAux, if_pos hlt, if_pos hmod, List.mem_cons] at he
        rcases he with he | he
        · rw [he]
          simp only []
          omega
        · exact stackWalkAux_width np total hnp hdvd fuel (c + 1) (t + 1) c hdc
            (by omega) (by omega) (by omega) (by omega) e he
      · have hne : c ≠ l + np := by
          intro hc
          exact hmod (Nat.mod_eq_zero_of_dvd (hc ▸ Nat.dvd_add hl dvd_rfl))
        intro e he
        simp only [stackWalkAux, if_pos hlt, if_neg hmod] at he
        exact stackWalkAux_width np total hnp hdvd fuel (c + 1) t l hl
          (by omega) (by omega) (by omega) (by omega) e he
    · have hc : c = total := by omega
      have hsub : np ∣ total - l := Nat.dvd_sub' hdvd hl
      have hle : np ≤ total - l := Nat.le_of_dvd (by omega) hsub
      intro e he
      simp only [stackWalkAux, if_neg hlt, List.mem_singleton] at he
      rw [he]
      simp only []
      omega

/-- When `total ≤ np` the loop never closes a group, so only the trailing
flush `[0, total)` is emitted, at timepoint 0. -/
theorem stackWalkAux_single (np total : Nat) (htn : total ≤ np) :
    ∀ fuel curPlane, 1 ≤ curPlane → total < fuel + curPlane →
      stackWalkAux np total fuel curPlane 0 0 = [(0, 0, total)]
  | 0, c, h1, h2 => by simp [stackWalkAux]
  | fuel + 1, c, h1, h2 => by
    by_cases hlt : c < total
    · have hmod : c % np ≠ 0 := by
        have h := Nat.mod_eq_of_lt (show c < np by omega)
        omega
      simp only [stackWalkAux, if_pos hlt, if_neg hmod]
      exact stackWalkAux_single np total htn fuel (c + 1) (by omega) (by omega)
    · simp [stackWalkAux, hlt]

theorem getLastD_cons_ne_nil (a d : Nat) (l : List Nat) (h : l ≠ []) :
    (a :: l).getLastD d = l.getLastD d := by
  cases l with
  | nil => exact absurd rfl h
  | cons b t =>
    rw [List.getLastD_eq_getLast? d (a :: b :: t), List.getLastD_eq_getLast? d (b :: t),
      List.getLast?_cons_cons]

/-- Splitting off the last axis: for non-empty dims the element count is the
per-plane element count times the last-axis length. -/
theorem prod_dropLast_getLastD : ∀ (l : List Nat), l ≠ [] →
    l.dropLast.prod * l.getLastD 0 = l.prod
  | [], h => absurd rfl h
  | [a], _ => by simp
  | a :: b :: t, _ => by
    have ih := prod_dropLast_getLastD (b :: t) (by simp)
    have h1 : (a :: b :: t).dropLast = a :: (b :: t).dropLast := rfl
    have h2 : (a :: b :: t).getLastD 0 = (b :: t).getLastD 0 :=
      getLastD_cons_ne_nil a 0 (b :: t) (by simp)
    rw [h1, h2, List.prod_cons, List.prod_cons, mul_assoc, ih]

/-- Running the page walk and then applying the end-of-stream flush of lines
199-201 yields exactly the closed groups plus the flushed pending group,
each converted by `mkRetAry`. -/
theorem tifWalk_eq_groups (np0 : Int) :
    ∀ (pages : List Page) (npagesLeft : Int) (imgArys values : List Page),
      (if (tifWalk np0 pages npagesLeft imgArys values).1 = []
        then (tifWalk np0 pages npagesLeft imgArys values).2
        else (tifWalk np0 pages npagesLeft imgArys values).2 ++
          [mkRetAry (tifWalk np0 pages npagesLeft imgArys values).1]) =
      values ++ (tifGroupsAux np0 pages npagesLeft imgArys).map mkRetAry
  | [], npl, im, vals => by
    by_cases h : im = [] <;> simp [tifWalk, tifGroupsAux, h]
  | p :: rest, npl, im, vals => by
    by_cases h : npl - 1 = 0
    · have ih := tifWalk_eq_groups np0 rest np0 [] (vals ++ [mkRetAry (im ++ [p])])
      simp only [tifWalk, tifGroupsAux, if_pos h] at ih ⊢
      rw [ih]
      simp
    · have ih := tifWalk_eq_groups np0 rest (npl - 1) (im ++ [p]) vals
      simp only [tifWalk, tifGroupsAux, if_neg h] at ih ⊢
      exact ih

/-- Every page of the record lands in exactly one group, in order: the
groups concatenate back to the page stream (so the trailing pending group is
never dropped). -/
theorem tifGroupsAux_flatten (np0 : Int) :
    ∀ (pages : List Page) (npagesLeft : Int) (imgArys : List Page),
      (tifGroupsAux np0 pages npagesLeft imgArys).flatten = imgArys ++ pages
  | [], npl, im => by
    by_cases h : im = [] <;> simp [tifGroupsAux, h]
  | p :: rest, npl, im => by
    by_cases h : npl - 1 = 0
    · have ih := tifGroupsAux_flatten np0 rest np0 []
      simp [tifGroupsAux, h, ih]
    · have ih := tifGroupsAux_flatten np0 rest (npl - 1) (im ++ [p])
      simp [tifGroupsAux, h, ih]

/-- No group is ever empty: groups are only closed right after a page is
appended, and the trailing flush is guarded by `if imgArys:`. -/
theorem tifGroupsAux_ne_nil (np0 : Int) :
    ∀ (pages : List Page) (npagesLeft : Int) (imgArys : List Page),
      ∀ g ∈ tifGroupsAux np0 pages npagesLeft imgArys, g ≠ []
  | [], npl, im => by
    by_cases h : im = []
    · simp [tifGroupsAux, h]
    · intro g hg
      simp only [tifGroupsAux, if_neg h, List.mem_singleton] at hg
      rw [hg]
      exact h
  | p :: rest, npl, im => by
    intro g hg
    by_cases h : npl - 1 = 0
    · simp only [tifGroupsAux, if_pos h, List.mem_cons] at hg
      rcases hg with hg | hg
      · rw [hg]
        simp
      · exact tifGroupsAux_ne_nil np0 rest np0 [] g hg
    · simp only [tifGroupsAux, if_neg h] at hg
      exact tifGroupsAux_ne_nil np0 rest (npl - 1) (im ++ [p]) g hg

/-- The values `multitifReader` emits (the second components of its keyed
pairs) are exactly the `mkRetAry` images of the page groups. -/
theorem multitifReader_snd (nplanes : Option Int) (idx : Nat) (pages : List Page) :
    (multitifReader nplanes idx pages).map Prod.snd =
      (tifGroups (np0Of nplanes) pages).map mkRetAry := by
  have hbr := tifWalk_eq_groups (np0Of nplanes) pages (np0Of nplanes) [] []
  simp only [List.nil_append] at hbr
  unfold multitifReader tifGroups
  rw [List.map_snd_zip _ _ (by simp)]
  exact hbr

theorem toArray_err (dims : List Nat) (w : Nat) (np : Option Nat) (idx : Nat)
    (buf : List Nat) (h : buf.length < dims.prod * w) :
    toArray dims w np ⟨idx, buf⟩ =
      Except.error (LoadError.decodeError "buffer is smaller than requested size") := by
  unfold toArray frombuffer
  rw [if_pos h]

theorem stackGroupBounds_map_fst (np total : Nat) :
    (stackGroupBounds np total).map (fun e => e.1) =
      List.range' 0 ((stackGroupBounds np total).length) :=
  stackWalkAux_map_fst np total total 1 0 0

theorem fromStack_eq_none (dims : List Nat) (w : Nat) (records : List Record)
    (hd : dims ≠ []) :
    fromStack dims w none records =
      match mapDecode dims w none records with
      | Except.error e => Except.error e
      | Except.ok fs => Except.ok ⟨fs, some records.length, dims⟩ := by
  simp only [fromStack]
  rw [if_neg hd]

theorem fromStack_eq_pos (dims : List Nat) (w : Nat) (n : Int) (records : List Record)
    (hd : dims ≠ []) (hn : 0 < n) :
    fromStack dims w (some n) records =
      match mapDecode dims w (some n.toNat) records with
      | Except.error e => Except.error e
      | Except.ok fs => Except.ok ⟨fs, none, dims.dropLast ++ [n.toNat]⟩ := by
  simp only [fromStack]
  rw [if_neg hd, if_neg (by omega)]

theorem fromTif_eq_none (records : List (Nat × List Page)) :
    fromTif none records =
      Except.ok ⟨(records.map (fun r => multitifReader none r.1 r.2)).flatten,
        some records.length⟩ := rfl

theorem fromTif_eq_pos (n : Int) (records : List (Nat × List Page)) (hn : 0 < n) :
    fromTif (some n) records =
      Except.ok ⟨(records.map (fun r => multitifReader (some n) r.1 r.2)).flatten,
        none⟩ := by
  simp only [fromTif]
  rw [if_neg (by omega)]

/-- `toArray` can only fail with the numpy buffer-size `DecodeError`, never
with a configuration error. -/
theorem toArray_no_config (dims : List Nat) (w : Nat) (np : Option Nat) (r : Record)
    (m : String) : toArray dims w np r ≠ Except.error (LoadError.configError m) := by
  unfold toArray frombuffer
  by_cases h : r.buffer.length < dims.prod * w
  · rw [if_pos h]
    intro hh
    simp at hh
  · rw [if_neg h]
    cases np <;> simp

/-- Decoding the record stream can only fail with a `DecodeError`. -/
theorem mapDecode_no_config (dims : List Nat) (w : Nat) (np : Option Nat) :
    ∀ (records : List Record) (m : String),
      mapDecode dims w np records ≠ Except.error (LoadError.configError m)
  | [], m => by simp [mapDecode]
  | r :: rs, m => by
    intro h
    unfold mapDecode at h
    cases hta : toArray dims w np r with
    | error e =>
      rw [hta] at h
      cases hmd : mapDecode dims w np rs with
      | error e2 =>
        rw [hmd] at h
        have h2 : (Except.error e : Except LoadError (List Frame)) =
            Except.error (LoadError.configError m) := h
        exact toArray_no_config dims w np r m ((Except.error.inj h2) ▸ hta)
      | ok fs =>
        rw [hmd] at h
        have h2 : (Except.error e : Except LoadError (List Frame)) =
            Except.error (LoadError.configError m) := h
        exact toArray_no_config dims w np r m ((Except.error.inj h2) ▸ hta)
    | ok fs =>
      rw [hta] at h
      cases hmd : mapDecode dims w np rs with
      | error e2 =>
        rw [hmd] at h
        have h2 : (Except.error e2 : Except LoadError (List Frame)) =
            Except.error (LoadError.configError m) := h
        exact mapDecode_no_config dims w np rs m ((Except.error.inj h2) ▸ hmd)
      | ok fs2 =>
        rw [hmd] at h
        have h2 : (Except.ok (fs ++ fs2) : Except LoadError (List Frame)) =
            Except.error (LoadError.configError m) := h
        exact Except.noConfusion h2

/-! ### Claim theorems -/

/-- C1: key uniqueness fails on the code.  With `nplanes = 2` and two
records of 5 and 3 observed pages, `multitifReader` keys each record with its
own `nvals` (3 for record 0, 2 for record 1), so record 1's keys are
`1*2+0 = 2` and `1*2+1 = 3` — key 2 collides with record 0's third frame,
and the combined key list `[0, 1, 2, 2, 3]` is not duplicate-free, contrary
to the claimed uniqueness and to "record 1's keys start immediately after
record 0's keys using record 0's own nvals as the multiplier". -/
theorem multitif_variable_page_counts_key_collision :
    ((fromTif (some 2) [(0, List.replicate 5 pageA), (1, List.replicate 3 pageA)]).map
      (fun r => r.frames.map Prod.fst) = Except.ok [0, 1, 2, 2, 3])
    ∧ ¬ ([0, 1, 2, 2, 3] : List Nat).Nodup :=
  ⟨rfl, by decide⟩

/-- C5: MultipageDecoder end-of-stream flush.  The values `multitifReader`
emits are exactly the `mkRetAry` images of its page groups; every group —
the flushed trailing one included — is non-empty; the groups concatenate
back to the full page stream (so an undersized, even single-page, trailing
group is always emitted and never dropped); a group of more than one page is
stacked along a new trailing axis while a single-page group keeps the page's
own shape. -/
theorem multitif_end_flush_nonempty (nplanes : Option Int) (idx : Nat)
    (pages : List Page) :
    ((multitifReader nplanes idx pages).map Prod.snd =
      (tifGroups (np0Of nplanes) pages).map mkRetAry)
    ∧ (∀ g ∈ tifGroups (np0Of nplanes) pages, g ≠ [])
    ∧ ((tifGroups (np0Of nplanes) pages).flatten = pages)
    ∧ (∀ g ∈ tifGroups (np0Of nplanes) pages,
        (1 < g.length →
          (mkRetAry g).shape = (g.headD defaultPage).shape ++ [g.length])
        ∧ (g.length = 1 → mkRetAry g = g.headD defaultPage)) := by
  refine ⟨multitifReader_snd nplanes idx pages,
    tifGroupsAux_ne_nil (np0Of nplanes) pages (np0Of nplanes) [], ?_, ?_⟩
  · have h := tifGroupsAux_flatten (np0Of nplanes) pages (np0Of nplanes) []
    simpa [tifGroups] using h
  · intro g hg
    constructor
    · intro hlen
      unfold mkRetAry
      rw [if_pos hlen]
    · intro hlen
      unfold mkRetAry
      rw [if_neg (by omega)]

/-- C8: SingleFrameDecoder.  `fromPng` emits exactly one frame per record,
every frame's key is its record's position (`mapValues` keeps keys, and the
decode function is applied to the buffer only), and the reported `nimages`
is the record count, independent of the page decoder. -/
theorem png_one_frame_per_record (readPngFromBuf : List Nat → Page)
    (records : List (Nat × List Nat)) :
    (fromPng readPngFromBuf records).frames.length = records.length
    ∧ (fromPng readPngFromBuf records).frames.map Prod.fst = records.map Prod.fst
    ∧ (fromPng readPngFromBuf records).nimages = some records.length := by
  refine ⟨by simp [fromPng], ?_, rfl⟩
  show (records.map (fun r => (r.1, readPngFromBuf r.2))).map Prod.fst =
    records.map Prod.fst
  rw [List.map_map]
  rfl

/-- C9 counterexample: a buffer strictly larger than the byte size implied by
dims and element width (5 bytes against 2 elements of width 2) decodes
successfully — the extra trailing byte is ignored — instead of raising the
claimed `DecodeError`. -/
theorem stack_oversized_buffer_decodes :
    toArray [2] 2 none ⟨0, [1, 2, 3, 4, 9]⟩ =
      Except.ok [⟨0, [2], [[1, 2], [3, 4]]⟩]
    ∧ ([1, 2, 3, 4, 9] : List Nat).length ≠ ([2] : List Nat).prod * 2 :=
  ⟨rfl, by decide⟩

/-- C9 amended: decoding a record succeeds exactly when the buffer length is
at least the byte size implied by dims and element width; a smaller buffer
raises the numpy `DecodeError`, while a larger buffer succeeds with the
trailing bytes ignored. -/
theorem stack_buffer_size_bound (dims : List Nat) (w : Nat) (np : Option Nat)
    (idx : Nat) (buf : List Nat) (hd : dims ≠ [])
    (hv : np = none ∨ ∃ n, np = some n ∧ 0 < n) :
    (buf.length < dims.prod * w →
      toArray dims w np ⟨idx, buf⟩ =
        Except.error (LoadError.decodeError "buffer is smaller than requested size"))
    ∧ (dims.prod * w ≤ buf.length →
      ∃ fs, toArray dims w np ⟨idx, buf⟩ = Except.ok fs) := by
  constructor
  · exact toArray_err dims w np idx buf
  · intro h
    cases np with
    | none =>
      exact ⟨[⟨idx, dims, (chunkList w buf).take dims.prod⟩], by
        unfold toArray
        rw [frombuffer_ok w dims.prod buf h]⟩
    | some n => exact ⟨_, toArray_split dims w n idx buf h⟩

/-- C9 amended, applied: with dims = [2,2] and width 1 the 1-byte buffer [9]
is smaller than the 4 implied bytes, so `toArray` raises the `DecodeError`. -/
theorem stack_buffer_size_bound_app :
    (([9] : List Nat).length < ([2, 2] : List Nat).prod * 1 →
      toArray [2, 2] 1 none ⟨0, [9]⟩ =
        Except.error (LoadError.decodeError "buffer is smaller than requested size"))
    ∧ (([2, 2] : List Nat).prod * 1 ≤ ([9] : List Nat).length →
      ∃ fs, toArray [2, 2] 1 none ⟨0, [9]⟩ = Except.ok fs) :=
  stack_buffer_size_bound [2, 2] 1 none 0 [9] (by decide) (Or.inl rfl)

/-- C6 counterexample: `fromStack` with `nplanes = 2` on dims (1,2) — a case
where `groupsPerFile` is statically determinable (one group per record,
so frameCount 1) — reports the unknown sentinel `None` instead of an exact
value. -/
theorem stack_split_nimages_none :
    (fromStack [1, 2] 1 (some 2) [⟨0, [5, 7]⟩]).map ImagesResult.nimages =
      Except.ok none
    ∧ (none : Option Nat) ≠ some 1 :=
  ⟨rfl, by decide⟩

/-- C6 amended: the reported frameCount is the exact record count exactly
when `nplanes` is unset; whenever `nplanes` is set — for `fromStack` as well
as `fromTif`, even though Stack's group count is statically determinable —
the code reports the unknown sentinel `None`.  `fromPng` always reports the
exact record count. -/
theorem nimages_exact_iff_no_split (dims : List Nat) (w : Nat) (np : Option Int)
    (records : List Record) (res : ImagesResult) (recsT : List (Nat × List Page))
    (resT : TifImages) (readPngFromBuf : List Nat → Page)
    (recsP : List (Nat × List Nat)) :
    (fromStack dims w np records = Except.ok res →
      res.nimages = if np = none then some records.length else none)
    ∧ (fromTif np recsT = Except.ok resT →
      resT.nimages = if np = none then some recsT.length else none)
    ∧ (fromPng readPngFromBuf recsP).nimages = some recsP.length := by
  refine ⟨?_, ?_, rfl⟩
  · intro h
    by_cases hd : dims = []
    · unfold fromStack at h
      rw [if_pos hd] at h
      exact Except.noConfusion h
    · cases np with
      | none =>
        rw [fromStack_eq_none dims w records hd] at h
        cases hmd : mapDecode dims w none records with
        | error e =>
          rw [hmd] at h
          exact Except.noConfusion h
        | ok fs =>
          rw [hmd] at h
          have h2 : Except.ok (ImagesResult.mk fs (some records.length) dims) =
              Except.ok res := h
          rw [← Except.ok.inj h2]
          rfl
      | some n =>
        by_cases hn : n ≤ 0
        · unfold fromStack at h
          rw [if_neg hd] at h
          have h2 : (Except.error (LoadError.configError
              "nplanes must be positive if passed") : Except LoadError ImagesResult) =
              Except.ok res := by
            rw [← h]
            show _ = if n ≤ 0 then _ else _
            rw [if_pos hn]
          exact Except.noConfusion h2
        · rw [fromStack_eq_pos dims w n records hd (by omega)] at h
          cases hmd : mapDecode dims w (some n.toNat) records with
          | error e =>
            rw [hmd] at h
            exact Except.noConfusion h
          | ok fs =>
            rw [hmd] at h
            have h2 : Except.ok (ImagesResult.mk fs none (dims.dropLast ++ [n.toNat])) =
                Except.ok res := h
            rw [← Except.ok.inj h2]
            rfl
  · intro h
    cases np with
    | none =>
      rw [fromTif_eq_none recsT] at h
      rw [← Except.ok.inj h]
      rfl
    | some n =>
      by_cases hn : n ≤ 0
      · unfold fromTif at h
        have h2 : (Except.error (LoadError.configError
            "nplanes must be positive if passed") : Except LoadError TifImages) =
            Except.ok resT := by
          rw [← h]
          show _ = if n ≤ 0 then _ else _
          rw [if_pos hn]
        exact Except.noConfusion h2
      · rw [fromTif_eq_pos n recsT (by omega)] at h
        rw [← Except.ok.inj h]
        rfl

/-- C6 amended, applied: `fromStack` without `nplanes` on one record reports
the exact record count. -/
theorem nimages_exact_iff_no_split_app :
    (ImagesResult.mk [⟨0, [1], [[5]]⟩] (some 1) [1]).nimages =
      if (none : Option Int) = none then some ([(⟨0, [5]⟩ : Record)] : List Record).length
      else none :=
  (nimages_exact_iff_no_split [1] 1 none [⟨0, [5]⟩] ⟨[⟨0, [1], [[5]]⟩], some 1, [1]⟩
    [] ⟨[], none⟩ (fun _ => defaultPage) []).1 rfl

/-- C2 counterexample: with dims (1,6) and `nplanes = 2` — last-axis size 6
an exact positive multiple of 2 — the emitted groups have plane widths
`[2, 2, 2]`: the loop runs only while `curPlane < total`, so the group
ending at `total` is left to the trailing flush, which therefore emits a
full group of 2 planes, not the claimed empty group. -/
theorem stack_exact_multiple_no_empty_group :
    ((toArray [1, 6] 1 (some 2) ⟨0, [0, 1, 2, 3, 4, 5]⟩).map
      (fun fs => fs.map (fun f => f.shape.getLastD 0)) = Except.ok [2, 2, 2])
    ∧ (0 : Nat) ∉ ([2, 2, 2] : List Nat) :=
  ⟨rfl, by decide⟩

/-- C2 amended: when the last-axis size is an exact positive multiple of
`nplanes`, the walk closes groups only at multiples strictly below the total,
and the trailing flush emits one final full group of exactly `nplanes`
planes: every emitted frame — the trailing one included — has last-axis
size `nplanes`, and no empty frame is produced. -/
theorem stack_exact_multiple_trailing_full (dims : List Nat) (w np idx : Nat)
    (buf : List Nat) (h1 : dims ≠ []) (hnp : 0 < np)
    (hdvd : np ∣ dims.getLastD 0) (ht : 0 < dims.getLastD 0)
    (h4 : dims.prod * w ≤ buf.length) :
    ∃ fs, toArray dims w (some np) ⟨idx, buf⟩ = Except.ok fs ∧ fs ≠ [] ∧
      ∀ f ∈ fs, f.shape = dims.dropLast ++ [np] := by
  rw [toArray_split dims w np idx buf h4]
  refine ⟨_, rfl, ?_, ?_⟩
  · intro hnil
    exact stackWalkAux_ne_nil np (dims.getLastD 0) (dims.getLastD 0) 1 0 0
      (List.map_eq_nil_iff.mp hnil)
  · intro f hf
    rw [List.mem_map] at hf
    obtain ⟨e, he, hfe⟩ := hf
    have hwd := stackWalkAux_width np (dims.getLastD 0) hnp hdvd
      (dims.getLastD 0) 1 0 0 (dvd_zero np) (by omega) (by omega) (by omega)
      (by omega) e he
    rw [← hfe]
    show dims.dropLast ++ [e.2.2 - e.2.1] = dims.dropLast ++ [np]
    rw [hwd]

/-- C2 amended, applied: dims (1,6), `nplanes = 2`, the 6-byte buffer
decodes to frames that all have shape (1,2). -/
theorem stack_exact_multiple_trailing_full_app :
    ∃ fs, toArray [1, 6] 1 (some 2) ⟨0, [0, 1, 2, 3, 4, 5]⟩ = Except.ok fs ∧
      fs ≠ [] ∧ ∀ f ∈ fs, f.shape = [1, 2] :=
  stack_exact_multiple_trailing_full [1, 6] 1 2 0 [0, 1, 2, 3, 4, 5]
    (by decide) (by decide) (by decide) (by decide) (by decide)

/-- C3: StackDecoder with dims (2,2,6) and `nplanes = 2`: any record whose
buffer has the exact byte size (24 elements of width w) decodes to exactly 3
frames, each shaped (2,2,2), with keys `position*3 + 0`, `position*3 + 1`,
`position*3 + 2`. -/
theorem stack_dims226_np2_frames (p w : Nat) (buf : List Nat)
    (hw : 0 < w) (hlen : buf.length = 24 * w) :
    ∃ e0 e1 e2, toArray [2, 2, 6] w (some 2) ⟨p, buf⟩ =
      Except.ok [⟨p * 3 + 0, [2, 2, 2], e0⟩, ⟨p * 3 + 1, [2, 2, 2], e1⟩,
        ⟨p * 3 + 2, [2, 2, 2], e2⟩] := by
  refine ⟨extractPlanes 4 0 2 ((chunkList w buf).take 24),
    extractPlanes 4 2 4 ((chunkList w buf).take 24),
    extractPlanes 4 4 6 ((chunkList w buf).take 24), ?_⟩
  rw [toArray_split [2, 2, 6] w 2 p buf (by rw [hlen]; exact Nat.le_refl _)]
  rfl

/-- C3, applied: position 1, width 1, the 24-byte buffer 0..23. -/
theorem stack_dims226_np2_frames_app :
    ∃ e0 e1 e2, toArray [2, 2, 6] 1 (some 2)
        ⟨1, [0, 1, 2, 3, 4, 5, 6, 7, 8, 9, 10, 11, 12, 13, 14, 15, 16, 17,
          18, 19, 20, 21, 22, 23]⟩ =
      Except.ok [⟨1 * 3 + 0, [2, 2, 2], e0⟩, ⟨1 * 3 + 1, [2, 2, 2], e1⟩,
        ⟨1 * 3 + 2, [2, 2, 2], e2⟩] :=
  stack_dims226_np2_frames 1 1 _ (by decide) (by decide)

/-- C10: when `nplanes` is at least the (positive) last-axis size, the loop
never closes a group (`groupsPerFile` evaluates to 1), so the record decodes
to exactly one frame holding all `dims[-1]` planes — the entire element
array — under key equal to the record's position. -/
theorem stack_np_ge_total_single_frame (dims : List Nat) (w np idx : Nat)
    (buf : List Nat) (h1 : dims ≠ []) (h2 : 0 < dims.getLastD 0)
    (h3 : dims.getLastD 0 ≤ np) (h4 : dims.prod * w ≤ buf.length) :
    toArray dims w (some np) ⟨idx, buf⟩ =
      Except.ok [⟨idx, dims.dropLast ++ [dims.getLastD 0],
        (chunkList w buf).take dims.prod⟩] := by
  rw [toArray_split dims w np idx buf h4]
  have hw : stackGroupBounds np (dims.getLastD 0) = [(0, 0, dims.getLastD 0)] :=
    stackWalkAux_single np (dims.getLastD 0) h3 (dims.getLastD 0) 1
      (by omega) (by omega)
  rw [hw]
  have hnpts : npointsOf (dims.getLastD 0) np = 1 := by
    unfold npointsOf
    rcases Nat.lt_or_ge (dims.getLastD 0) np with hlt | hge
    · rw [Nat.div_eq_of_lt hlt, Nat.mod_eq_of_lt hlt]
      simp only [ne_eq]
      rw [if_pos (by omega)]
    · have heq : dims.getLastD 0 = np := by omega
      rw [heq, Nat.div_self (by omega), Nat.mod_self]
      simp
  have hdata : extractPlanes dims.dropLast.prod 0 (dims.getLastD 0)
      ((chunkList w buf).take dims.prod) = (chunkList w buf).take dims.prod := by
    unfold extractPlanes
    rw [Nat.zero_mul, List.drop_zero, Nat.sub_zero]
    apply List.take_of_length_le
    have hlen : ((chunkList w buf).take dims.prod).length ≤ dims.prod := by
      rw [List.length_take]
      omega
    have hprod : dims.prod = dims.dropLast.prod * dims.getLastD 0 :=
      (prod_dropLast_getLastD dims h1).symm
    rw [Nat.mul_comm] at hprod
    omega
  simp only [List.map_cons, List.map_nil]
  show Except.ok [(⟨idx * npointsOf (dims.getLastD 0) np + 0,
      dims.dropLast ++ [dims.getLastD 0 - 0],
      extractPlanes dims.dropLast.prod 0 (dims.getLastD 0)
        ((chunkList w buf).take dims.prod)⟩ : Frame)] =
    Except.ok [(⟨idx, dims.dropLast ++ [dims.getLastD 0],
      (chunkList w buf).take dims.prod⟩ : Frame)]
  rw [hnpts, Nat.sub_zero, hdata, Nat.mul_one, Nat.add_zero]

/-- C10, applied: dims (3), `nplanes = 5 ≥ 3`, position 7: one frame with
all three planes, key 7. -/
theorem stack_np_ge_total_single_frame_app :
    toArray [3] 1 (some 5) ⟨7, [1, 2, 3]⟩ =
      Except.ok [⟨7, [3], [[1], [2], [3]]⟩] :=
  stack_np_ge_total_single_frame [3] 1 5 7 [1, 2, 3]
    (by decide) (by decide) (by decide) (by decide)

/-- C4: StackDecoder remainder handling.  Concretely, dims (2,2,5) with
`nplanes = 2`: the emitted groups have last-axis sizes 2, 2, 1 in that
order, keys `position*3 + {0,1,2}`, and their data concatenates back to the
full 20-element array, covering each of the 5 planes exactly once.
Generally, the per-record frame count equals
`floor(total/nplanes) + (1 if total % nplanes != 0 else 0)` and the keys
are `position * groupsPerFile + localIndex` for local indices
`0 .. groupsPerFile - 1` in emission order. -/
theorem stack_dims225_np2_remainder :
    (∀ (p w : Nat) (buf : List Nat), 0 < w → buf.length = 20 * w →
      ∃ fs, toArray [2, 2, 5] w (some 2) ⟨p, buf⟩ = Except.ok fs ∧
        fs.map (fun f => (f.key, f.shape.getLastD 0)) =
          [(p * 3 + 0, 2), (p * 3 + 1, 2), (p * 3 + 2, 1)] ∧
        (fs.map Frame.data).flatten = (chunkList w buf).take 20)
    ∧ (∀ (dims : List Nat) (w np idx : Nat) (buf : List Nat) (fs : List Frame),
        0 < np → 0 < dims.getLastD 0 →
        toArray dims w (some np) ⟨idx, buf⟩ = Except.ok fs →
        fs.length = npointsOf (dims.getLastD 0) np ∧
        fs.map Frame.key = (List.range (npointsOf (dims.getLastD 0) np)).map
          (fun t => idx * npointsOf (dims.getLastD 0) np + t)) := by
  constructor
  · intro p w buf hw hlen
    refine ⟨_, toArray_split [2, 2, 5] w 2 p buf (by rw [hlen]; exact Nat.le_refl _),
      rfl, ?_⟩
    show ((chunkList w buf).take 20).take 8 ++
        ((((chunkList w buf).take 20).drop 8).take 8 ++
          ((((chunkList w buf).take 20).drop 16).take 4 ++ [])) =
      (chunkList w buf).take 20
    rw [List.append_nil]
    have h16 : ((chunkList w buf).take 20).drop 16 =
        (((chunkList w buf).take 20).drop 8).drop 8 :=
      (List.drop_drop 8 8 ((chunkList w buf).take 20)).symm
    rw [h16, ← List.take_add, ← List.take_add]
    apply List.take_of_length_le
    rw [List.length_take]
    omega
  · intro dims w np idx buf fs hnp ht hok
    by_cases hbuf : dims.prod * w ≤ buf.length
    · rw [toArray_split dims w np idx buf hbuf] at hok
      have hfs := Except.ok.inj hok
      subst hfs
      constructor
      · rw [List.length_map]
        exact stackGroupBounds_length np (dims.getLastD 0) hnp ht
      · rw [List.map_map]
        show (stackGroupBounds np (dims.getLastD 0)).map
            ((fun t => idx * npointsOf (dims.getLastD 0) np + t) ∘ (fun e => e.1)) =
          (List.range (npointsOf (dims.getLastD 0) np)).map
            (fun t => idx * npointsOf (dims.getLastD 0) np + t)
        rw [← List.map_map, stackGroupBounds_map_fst np (dims.getLastD 0),
          stackGroupBounds_length np (dims.getLastD 0) hnp ht,
          ← List.range_eq_range']
    · rw [toArray_err dims w (some np) idx buf (by omega)] at hok
      exact Except.noConfusion hok

/-- C4, applied: position 0, width 1, the 20-byte buffer 0..19. -/
theorem stack_dims225_np2_remainder_app :
    ∃ fs, toArray [2, 2, 5] 1 (some 2)
        ⟨0, [0, 1, 2, 3, 4, 5, 6, 7, 8, 9, 10, 11, 12, 13, 14, 15, 16, 17,
          18, 19]⟩ = Except.ok fs ∧
      fs.map (fun f => (f.key, f.shape.getLastD 0)) =
        [(0 * 3 + 0, 2), (0 * 3 + 1, 2), (0 * 3 + 2, 1)] ∧
      (fs.map Frame.data).flatten =
        (chunkList 1 [0, 1, 2, 3, 4, 5, 6, 7, 8, 9, 10, 11, 12, 13, 14, 15,
          16, 17, 18, 19]).take 20 :=
  stack_dims225_np2_remainder.1 0 1 _ (by decide) (by decide)

/-- C7: the validator.  With empty dims, or with a provided non-positive
`nplanes`, `fromStack` (and `fromTif` for `nplanes`) returns the
configuration error — the same error value for every record list, so before
any record is decoded; with non-empty dims and a positive (or absent)
`nplanes`, no configuration error is ever returned. -/
theorem validator_config_error (dims : List Nat) (w : Nat) (np : Option Int)
    (records : List Record) (recsT : List (Nat × List Page)) :
    (dims = [] → fromStack dims w np records = Except.error (LoadError.configError
      "Image dimensions must be specified if loading from binary stack data"))
    ∧ (∀ n, np = some n → n ≤ 0 → dims ≠ [] →
        fromStack dims w np records =
          Except.error (LoadError.configError "nplanes must be positive if passed"))
    ∧ (∀ n, np = some n → n ≤ 0 →
        fromTif np recsT =
          Except.error (LoadError.configError "nplanes must be positive if passed"))
    ∧ (dims ≠ [] → (np = none ∨ ∃ n, np = some n ∧ 0 < n) →
        ∀ m, fromStack dims w np records ≠ Except.error (LoadError.configError m))
    ∧ ((np = none ∨ ∃ n, np = some n ∧ 0 < n) →
        ∀ m, fromTif np recsT ≠ Except.error (LoadError.configError m)) := by
  refine ⟨?_, ?_, ?_, ?_, ?_⟩
  · intro h
    unfold fromStack
    rw [if_pos h]
  · intro n hn hle hd
    subst hn
    unfold fromStack
    rw [if_neg hd]
    show (if n ≤ 0 then _ else _) = _
    rw [if_pos hle]
  · intro n hn hle
    subst hn
    unfold fromTif
    show (if n ≤ 0 then _ else _) = _
    rw [if_pos hle]
  · intro hd hv m
    rcases hv with hnone | ⟨n, hn, hpos⟩
    · subst hnone
      rw [fromStack_eq_none dims w records hd]
      cases hmd : mapDecode dims w none records with
      | error e =>
        intro h
        have h2 : (Except.error e : Except LoadError ImagesResult) =
            Except.error (LoadError.configError m) := h
        exact mapDecode_no_config dims w none records m ((Except.error.inj h2) ▸ hmd)
      | ok fs =>
        intro h
        have h2 : (Except.ok (ImagesResult.mk fs (some records.length) dims) :
            Except LoadError ImagesResult) = Except.error (LoadError.configError m) := h
        exact Except.noConfusion h2
    · subst hn
      rw [fromStack_eq_pos dims w n records hd hpos]
      cases hmd : mapDecode dims w (some n.toNat) records with
      | error e =>
        intro h
        have h2 : (Except.error e : Except LoadError ImagesResult) =
            Except.error (LoadError.configError m) := h
        exact mapDecode_no_config dims w (some n.toNat) records m
          ((Except.error.inj h2) ▸ hmd)
      | ok fs =>
        intro h
        have h2 : (Except.ok (ImagesResult.mk fs none (dims.dropLast ++ [n.toNat])) :
            Except LoadError ImagesResult) = Except.error (LoadError.configError m) := h
        exact Except.noConfusion h2
  · intro hv m
    rcases hv with hnone | ⟨n, hn, hpos⟩
    · subst hnone
      rw [fromTif_eq_none recsT]
      intro h
      exact Except.noConfusion h
    · subst hn
      rw [fromTif_eq_pos n recsT hpos]
      intro h
      exact Except.noConfusion h

/-- C7, applied: `dims = []` raises the dims error; `nplanes = 0` raises the
nplanes error for `fromStack`, and `nplanes = -2` for `fromTif`. -/
theorem validator_config_error_app :
    (fromStack [] 1 none [] = Except.error (LoadError.configError
      "Image dimensions must be specified if loading from binary stack data"))
    ∧ (fromStack [1] 1 (some 0) [] = Except.error (LoadError.configError
      "nplanes must be positive if passed"))
    ∧ (fromTif (some (-2)) ([] : List (Nat × List Page)) =
      Except.error (LoadError.configError "nplanes must be positive if passed")) :=
  ⟨(validator_config_error [] 1 none [] []).1 rfl,
   (validator_config_error [1] 1 (some 0) [] []).2.1 0 rfl (by decide) (by decide),
   (validator_config_error [1] 1 (some (-2)) [] []).2.2.1 (-2) rfl (by decide)⟩
